import Mathlib

/-!
Verification development for `src/ParameterValidator.js` of
MyPureCloud/parameter-validator.

The JavaScript code is shallowly embedded: JS values relevant to the
validator are the inductive `Value`, JS objects used as string-keyed
mappings are association lists (`JSObj`) with JS property-update
semantics (update in place keeps the key's position, a new key is
appended), and code that can `throw` returns an explicit error
component.  Thrown errors are distinguished by their JS class:
`ParameterValidationError`, plain `Error`, and `TypeError`.
-/

set_option maxHeartbeats 1000000

/-- JS values that can appear as parameter values in this development. -/
inductive Value where
  | undefined
  | null
  | boolean (b : Bool)
  | number (n : Int)
  | string (s : String)
deriving DecidableEq

/-- JS truthiness of a `Value` (used by `if (...)` and `||` in the source). -/
def Value.truthy : Value → Bool
  | .undefined => false
  | .null => false
  | .boolean b => b
  | .number n => if n = 0 then false else true
  | .string s => if s = "" then false else true

/-- How a `Value` renders inside a JS template string. -/
def Value.toDisplayString : Value → String
  | .undefined => "undefined"
  | .null => "null"
  | .boolean true => "true"
  | .boolean false => "false"
  | .number n => toString n
  | .string s => s

/-- A JS object used as a string-keyed mapping, in property insertion order. -/
abbrev JSObj := List (String × Value)

/-- JS property read: first entry with the key, `undefined` when absent. -/
def JSObj.get : JSObj → String → Value
  | [], _ => .undefined
  | p :: rest, k => if p.1 = k then p.2 else JSObj.get rest k

/-- Whether the object has an own property named `k`. -/
def JSObj.hasKey : JSObj → String → Bool
  | [], _ => false
  | p :: rest, k => if p.1 = k then true else JSObj.hasKey rest k

/-- JS property write: an existing key keeps its position and gets the new
value, a new key is appended at the end. -/
def JSObj.set (o : JSObj) (k : String) (v : Value) : JSObj :=
  if JSObj.hasKey o k then o.map (fun p => if p.1 = k then (k, v) else p)
  else o ++ [(k, v)]

/-- `Object.assign(target, source)`: copy every property of `source` onto
`target` in order, mutating `target`. -/
def JSObj.assign (target source : JSObj) : JSObj :=
  source.foldl (fun t p => JSObj.set t p.1 p.2) target

/-- JS `s.slice(0, -1)`: drop the last character. -/
def jsSliceDropLast (s : String) : String :=
  String.mk s.data.dropLast

/-- JS `s.slice(0, -2)`: drop the last two characters. -/
def jsSliceDropLast2 (s : String) : String :=
  String.mk s.data.dropLast.dropLast

/-- A thrown JS error, tagged with its class. -/
inductive JSError where
  | ParameterValidationError (message : String)
  | Error (message : String)
  | TypeError (message : String)
deriving DecidableEq

/-- The `ParameterValidator` instance state: the `_defaultValidation`
property, `none` when it was never assigned or assigned `undefined`. -/
structure ParameterValidator where
  _defaultValidation : Option (Value → Value)

/-- `isDefined(value) { return value !== undefined; }` -/
def isDefined (value : Value) : Value :=
  .boolean (value ≠ .undefined)

/-- `get defaultValidation() { return this._defaultValidation || this.isDefined; }`
(a function is always truthy, so `||` falls through only for `undefined`). -/
def ParameterValidator.defaultValidation (pv : ParameterValidator) : Value → Value :=
  match pv._defaultValidation with
  | some f => f
  | none => isDefined

/-- Shape of `options.defaultValidation` as seen by the constructor:
absent/`undefined`, a function, or a present non-function value. -/
inductive DefaultValidationOption where
  | undef
  | fn (f : Value → Value)
  | nonFunction (v : Value)

/-- `new ParameterValidator(options)`; the argument is `none` for a falsy
`options` and `some dv` for an options object whose `defaultValidation`
field has shape `dv`. -/
def newParameterValidator : Option DefaultValidationOption → Except JSError ParameterValidator
  | none => .ok ⟨none⟩
  | some .undef => .ok ⟨none⟩
  | some (.fn f) => .ok ⟨some f⟩
  | some (.nonFunction _) =>
      .error (.ParameterValidationError
        "The optional defaultValidation parameter provided is not a function.")

/-- The module-level singleton `const parameterValidator = new ParameterValidator();`. -/
def parameterValidator : ParameterValidator := ⟨none⟩

/-- The value sitting under a key of an object-shaped requirement: either a
JS function or a non-function value. -/
inductive ReqValue where
  | fn (f : Value → Value)
  | plain (v : Value)

/-- A `paramRequirement` array item, by JS shape: an array (of parameter
names), a plain object (entries in `Object.keys` order), `null`, a string,
a number, a boolean, or `undefined`. -/
inductive Requirement where
  | arr (names : List String)
  | obj (entries : List (String × ReqValue))
  | null
  | str (s : String)
  | number (n : Int)
  | boolean (b : Bool)
  | undefined

/-- The `{errors, params}` record returned by the two rule helpers. -/
structure RuleResult where
  errors : List String
  params : JSObj
deriving DecidableEq

/-- `_performLogicalOrParamValidation(paramsProvided, paramNames)`: extract
every name whose value satisfies (truthily) the default validation; if none
did, produce the single "One of the following parameters must be included"
message built by appending `'name', ` per name and slicing off the final
`, `. -/
def ParameterValidator._performLogicalOrParamValidation
    (pv : ParameterValidator) (paramsProvided : JSObj) (paramNames : List String) :
    RuleResult :=
  let isValid := pv.defaultValidation
  let extractedParams := paramNames.foldl
    (fun ex paramName =>
      if (isValid (JSObj.get paramsProvided paramName)).truthy then
        JSObj.set ex paramName (JSObj.get paramsProvided paramName)
      else ex) []
  if extractedParams.length = 0 then
    let errorMessage := paramNames.foldl
      (fun m paramName => m ++ ("'" ++ paramName ++ "', "))
      "One of the following parameters must be included: "
    ⟨[jsSliceDropLast2 errorMessage ++ "."], extractedParams⟩
  else
    ⟨[], extractedParams⟩

/-- The body of `_executeValidationFunction` once `validationFunction` is
known to be a function: extract the value when the function returns exactly
`true`, otherwise produce the "Invalid value" message. -/
def execValidation (paramsProvided : JSObj) (paramName : String) (f : Value → Value) :
    RuleResult :=
  if f (JSObj.get paramsProvided paramName) = Value.boolean true then
    ⟨[], [(paramName, JSObj.get paramsProvided paramName)]⟩
  else
    ⟨["Invalid value of '" ++ (JSObj.get paramsProvided paramName).toDisplayString ++
        "' was provided for parameter '" ++ paramName ++ "'."], []⟩

/-- `_executeValidationFunction(paramsProvided, paramName, validationFunction)`:
throws a plain `Error` when the supplied validation function is not a
function, otherwise runs it (`execValidation`). -/
def executeValidationFunction (paramsProvided : JSObj) (paramName : String)
    (validationFunction : ReqValue) : Except JSError RuleResult :=
  match validationFunction with
  | .plain _ =>
      .error (.Error ("A paramRequirement value provided for the parameter " ++
        paramName ++ " is not a function."))
  | .fn f => .ok (execValidation paramsProvided paramName f)

/-- The `for (var paramRequirement of paramRequirements)` loop of
`validate`, threading the `extractedParams` object (mutated in place by
`Object.assign`) and the `errors` array; the third component is a mid-loop
thrown error, which aborts the loop.

Branch dispatch mirrors the source: a non-empty array is a logical-OR
rule; otherwise anything of JS type `object` enters the object branch
(`Object.keys(x)` is an array and hence always truthy) — so an empty array
or empty object reaches `_executeValidationFunction` with first key
`undefined` and value `undefined` (not a function), and `null` makes
`Object.keys` throw a `TypeError`; otherwise a non-empty string uses the
default validation; everything else is skipped.  The object branch
performs its `Object.assign` twice, as the source does. -/
def ParameterValidator.validateLoop (pv : ParameterValidator) (paramsProvided : JSObj) :
    List Requirement → JSObj → List String → JSObj × List String × Option JSError
  | [], extractedParams, errors => (extractedParams, errors, none)
  | paramRequirement :: rest, extractedParams, errors =>
    match paramRequirement with
    | .arr (n :: ns) =>
        let validationResult := pv._performLogicalOrParamValidation paramsProvided (n :: ns)
        pv.validateLoop paramsProvided rest
          (JSObj.assign extractedParams validationResult.params)
          (errors ++ validationResult.errors)
    | .arr [] =>
        (match executeValidationFunction paramsProvided "undefined" (.plain .undefined) with
         | .error e => (extractedParams, errors, some e)
         | .ok validationResult =>
             pv.validateLoop paramsProvided rest
               (JSObj.assign (JSObj.assign extractedParams validationResult.params)
                 validationResult.params)
               (errors ++ validationResult.errors))
    | .obj [] =>
        (match executeValidationFunction paramsProvided "undefined" (.plain .undefined) with
         | .error e => (extractedParams, errors, some e)
         | .ok validationResult =>
             pv.validateLoop paramsProvided rest
               (JSObj.assign (JSObj.assign extractedParams validationResult.params)
                 validationResult.params)
               (errors ++ validationResult.errors))
    | .obj ((paramName, validationFunction) :: _) =>
        (match executeValidationFunction paramsProvided paramName validationFunction with
         | .error e => (extractedParams, errors, some e)
         | .ok validationResult =>
             pv.validateLoop paramsProvided rest
               (JSObj.assign (JSObj.assign extractedParams validationResult.params)
                 validationResult.params)
               (errors ++ validationResult.errors))
    | .null => (extractedParams, errors, some (.TypeError "Cannot convert undefined or null to object"))
    | .str s =>
        if s = "" then pv.validateLoop paramsProvided rest extractedParams errors
        else
          (match executeValidationFunction paramsProvided s (.fn pv.defaultValidation) with
           | .error e => (extractedParams, errors, some e)
           | .ok validationResult =>
               pv.validateLoop paramsProvided rest
                 (JSObj.assign extractedParams validationResult.params)
                 (errors ++ validationResult.errors))
    | .number _ => pv.validateLoop paramsProvided rest extractedParams errors
    | .boolean _ => pv.validateLoop paramsProvided rest extractedParams errors
    | .undefined => pv.validateLoop paramsProvided rest extractedParams errors

/-- Outcome of a `validate` call: the final state of the `extractedParams`
object (the caller-supplied target, mutated in place), the final state of
`paramsProvided` (the source only ever reads it), and the thrown error if
any. -/
structure ValidateOutcome where
  extractedParams : JSObj
  paramsProvided : Option JSObj
  thrown : Option JSError
deriving DecidableEq

/-- `validate(paramsProvided, paramRequirements, extractedParams)`.
`paramsProvided` is `none` for a falsy argument, `paramRequirements` is
`none` for a non-array argument; the JS default `extractedParams = {}` is
passed explicitly as `[]`. -/
def ParameterValidator.validate (pv : ParameterValidator) (paramsProvided : Option JSObj)
    (paramRequirements : Option (List Requirement)) (extractedParams : JSObj) :
    ValidateOutcome :=
  match paramsProvided with
  | none =>
      ⟨extractedParams, paramsProvided,
        some (.ParameterValidationError "A paramsProvided object is required.")⟩
  | some provided =>
    match paramRequirements with
    | none => ⟨extractedParams, paramsProvided, some (.Error "paramRequirements must be an array.")⟩
    | some reqs =>
      match pv.validateLoop provided reqs extractedParams [] with
      | (ex, _, some e) => ⟨ex, paramsProvided, some e⟩
      | (ex, errors, none) =>
        if errors.length ≠ 0 then
          let errorMessage := errors.foldl (fun m e => m ++ (e ++ " ")) ""
          ⟨ex, paramsProvided, some (.ParameterValidationError (jsSliceDropLast errorMessage))⟩
        else ⟨ex, paramsProvided, none⟩

/-- A settled JS promise. -/
inductive PromiseResult (α : Type) where
  | fulfilled (value : α)
  | rejected (reason : JSError)
deriving DecidableEq

/-- `Promise.resolve()`: an already-fulfilled promise of `undefined`. -/
def promiseResolve : PromiseResult Unit := .fulfilled ()

/-- `p.then(cb)`: run `cb` on fulfillment; a value thrown by `cb` settles
the resulting promise as rejected.  Per the JS promise semantics the
callback runs in a later microtask, after the current synchronous
execution, so `then` itself never throws. -/
def promiseThen {α β : Type} (p : PromiseResult α) (cb : α → Except JSError β) :
    PromiseResult β :=
  match p with
  | .rejected e => .rejected e
  | .fulfilled v =>
    match cb v with
    | .ok b => .fulfilled b
    | .error e => .rejected e

/-- View a `validate` outcome as the throw/return behaviour of the call. -/
def ValidateOutcome.toExcept (out : ValidateOutcome) : Except JSError JSObj :=
  match out.thrown with
  | some e => .error e
  | none => .ok out.extractedParams

/-- `validateAsync(...args) { return Promise.resolve().then(() => this.validate(...args)); }` -/
def ParameterValidator.validateAsync (pv : ParameterValidator) (paramsProvided : Option JSObj)
    (paramRequirements : Option (List Requirement)) (extractedParams : JSObj) :
    PromiseResult JSObj :=
  promiseThen promiseResolve
    (fun _ => (pv.validate paramsProvided paramRequirements extractedParams).toExcept)

/-! ### String lemmas for the message-building code -/

theorem strData_append (a b : String) : (a ++ b).data = a.data ++ b.data := by
  cases a; cases b; rfl

theorem strExt {a b : String} (h : a.data = b.data) : a = b := by
  cases a; cases b; exact congrArg String.mk (by simpa using h)

theorem strAppend_assoc (a b c : String) : a ++ b ++ c = a ++ (b ++ c) := by
  apply strExt
  simp [strData_append]

theorem strAppend_empty (s : String) : s ++ "" = s := by
  apply strExt
  rw [strData_append]
  show s.data ++ [] = s.data
  simp

theorem strEmpty_append (s : String) : "" ++ s = s := by
  apply strExt
  rw [strData_append]
  show [] ++ s.data = s.data
  simp

theorem jsSliceDropLast_space (s : String) : jsSliceDropLast (s ++ " ") = s := by
  apply strExt
  show (s ++ " ").data.dropLast = s.data
  rw [strData_append]
  show (s.data ++ [' ']).dropLast = s.data
  exact List.dropLast_concat

theorem jsSliceDropLast2_commaSpace (s : String) : jsSliceDropLast2 (s ++ ", ") = s := by
  apply strExt
  show (s ++ ", ").data.dropLast.dropLast = s.data
  rw [strData_append, show (", " : String).data = [','] ++ [' '] from rfl, ← List.append_assoc,
    List.dropLast_concat, List.dropLast_concat]

/-- Specification-level join: the given strings separated by single spaces. -/
def joinSpace : List String → String
  | [] => ""
  | [m] => m
  | m :: m2 :: rest => m ++ " " ++ joinSpace (m2 :: rest)

/-- Specification-level join: each name single-quoted, separated by `, `. -/
def quoteList : List String → String
  | [] => ""
  | [n] => "'" ++ n ++ "'"
  | n :: n2 :: rest => ("'" ++ n ++ "'") ++ ", " ++ quoteList (n2 :: rest)

theorem strFoldl_factor (h : String → String) :
    ∀ (l : List String) (a : String),
      l.foldl (fun m e => m ++ h e) a = a ++ l.foldl (fun m e => m ++ h e) ""
  | [], a => by simp [strAppend_empty]
  | e :: l, a => by
      show l.foldl _ (a ++ h e) = a ++ l.foldl _ ("" ++ h e)
      rw [strFoldl_factor h l (a ++ h e), strFoldl_factor h l ("" ++ h e),
        strEmpty_append, strAppend_assoc]

theorem foldSpace_eq : ∀ (l : List String), l ≠ [] →
    l.foldl (fun m e => m ++ (e ++ " ")) "" = joinSpace l ++ " "
  | [e], _ => by
      show "" ++ (e ++ " ") = joinSpace [e] ++ " "
      rw [strEmpty_append]
      show e ++ " " = e ++ " "
      rfl
  | e :: e2 :: rest, _ => by
      show (e2 :: rest).foldl _ ("" ++ (e ++ " ")) = joinSpace (e :: e2 :: rest) ++ " "
      rw [strEmpty_append, strFoldl_factor (fun e => e ++ " ") (e2 :: rest) (e ++ " "),
        foldSpace_eq (e2 :: rest) (by simp), ← strAppend_assoc]
      rfl

theorem quote_chunk (n : String) : "'" ++ n ++ "', " = ("'" ++ n ++ "'") ++ ", " := by
  rw [show ("', " : String) = "'" ++ ", " from rfl, ← strAppend_assoc]

theorem foldQuote_eq : ∀ (l : List String), l ≠ [] →
    l.foldl (fun m n => m ++ ("'" ++ n ++ "', ")) "" = quoteList l ++ ", "
  | [n], _ => by
      show "" ++ ("'" ++ n ++ "', ") = quoteList [n] ++ ", "
      rw [strEmpty_append]
      exact quote_chunk n
  | n :: n2 :: rest, _ => by
      show (n2 :: rest).foldl _ ("" ++ ("'" ++ n ++ "', ")) = quoteList (n :: n2 :: rest) ++ ", "
      rw [strEmpty_append, strFoldl_factor (fun n => "'" ++ n ++ "', ") (n2 :: rest),
        foldQuote_eq (n2 :: rest) (by simp), quote_chunk, ← strAppend_assoc]
      rfl

theorem errMessage_eq (l : List String) (h : l ≠ []) :
    jsSliceDropLast (l.foldl (fun m e => m ++ (e ++ " ")) "") = joinSpace l := by
  rw [foldSpace_eq l h, jsSliceDropLast_space]

theorem orMessage_eq (names : List String) (h : names ≠ []) :
    jsSliceDropLast2 (names.foldl (fun m paramName => m ++ ("'" ++ paramName ++ "', "))
        "One of the following parameters must be included: ") ++ "."
      = "One of the following parameters must be included: " ++ quoteList names ++ "." := by
  rw [strFoldl_factor (fun n => "'" ++ n ++ "', ") names, foldQuote_eq names h,
    ← strAppend_assoc, jsSliceDropLast2_commaSpace]

/-! ### JSObj lemmas -/

theorem hasKey_map_set (o : JSObj) (k k' : String) (v : Value) :
    JSObj.hasKey (o.map (fun p => if p.1 = k then (k, v) else p)) k' = JSObj.hasKey o k' := by
  induction o with
  | nil => rfl
  | cons p rest ih =>
    by_cases hp : p.1 = k <;> simp [JSObj.hasKey, hp, ih]

theorem hasKey_append_one (o : JSObj) (k k' : String) (v : Value) :
    JSObj.hasKey (o ++ [(k, v)]) k' = (if k' = k then true else JSObj.hasKey o k') := by
  induction o with
  | nil =>
    show JSObj.hasKey [(k, v)] k' = _
    by_cases h : k' = k
    · subst h; simp [JSObj.hasKey]
    · have h2 : ¬(k = k') := fun hh => h hh.symm
      simp [JSObj.hasKey, h, h2]
  | cons p rest ih =>
    show (if p.1 = k' then true else JSObj.hasKey (rest ++ [(k, v)]) k') = _
    by_cases hp : p.1 = k'
    · rw [if_pos hp]
      by_cases h : k' = k
      · rw [if_pos h]
      · rw [if_neg h, JSObj.hasKey, if_pos hp]
    · rw [if_neg hp, ih]
      by_cases h : k' = k
      · rw [if_pos h, if_pos h]
      · rw [if_neg h, if_neg h, JSObj.hasKey, if_neg hp]

theorem hasKey_set (o : JSObj) (k k' : String) (v : Value) :
    JSObj.hasKey (JSObj.set o k v) k' = (if k' = k then true else JSObj.hasKey o k') := by
  rw [JSObj.set]
  by_cases h : JSObj.hasKey o k = true
  · rw [if_pos h, hasKey_map_set]
    by_cases hk : k' = k
    · rw [if_pos hk, hk, h]
    · rw [if_neg hk]
  · rw [if_neg h, hasKey_append_one]

theorem get_of_not_hasKey (o : JSObj) (k : String) (h : JSObj.hasKey o k = false) :
    JSObj.get o k = .undefined := by
  induction o with
  | nil => rfl
  | cons p rest ih =>
    rw [JSObj.hasKey] at h
    by_cases hp : p.1 = k
    · rw [if_pos hp] at h; exact absurd h (by simp)
    · rw [if_neg hp] at h
      simp [JSObj.get, hp, ih h]

theorem get_map_set_self (o : JSObj) (k : String) (v : Value) (h : JSObj.hasKey o k = true) :
    JSObj.get (o.map (fun p => if p.1 = k then (k, v) else p)) k = v := by
  induction o with
  | nil => simp [JSObj.hasKey] at h
  | cons p rest ih =>
    by_cases hp : p.1 = k
    · simp [JSObj.get, hp]
    · rw [JSObj.hasKey, if_neg hp] at h
      simp [JSObj.get, hp, ih h]

theorem get_map_set_ne (o : JSObj) (k k' : String) (v : Value) (h : k' ≠ k) :
    JSObj.get (o.map (fun p => if p.1 = k then (k, v) else p)) k' = JSObj.get o k' := by
  induction o with
  | nil => rfl
  | cons p rest ih =>
    by_cases hp : p.1 = k
    · have hkk : ¬(k = k') := fun hh => h hh.symm
      simp [JSObj.get, hp, hkk, ih]
    · simp [JSObj.get, hp, ih]

theorem get_append_one (o : JSObj) (k k' : String) (v : Value) :
    JSObj.get (o ++ [(k, v)]) k' =
      (if JSObj.hasKey o k' then JSObj.get o k'
       else if k = k' then v else .undefined) := by
  induction o with
  | nil => simp [JSObj.get, JSObj.hasKey]
  | cons p rest ih =>
    by_cases hp : p.1 = k' <;> simp [JSObj.get, JSObj.hasKey, hp, ih]

theorem get_set (o : JSObj) (k k' : String) (v : Value) :
    JSObj.get (JSObj.set o k v) k' = (if k' = k then v else JSObj.get o k') := by
  rw [JSObj.set]
  by_cases h : JSObj.hasKey o k = true
  · rw [if_pos h]
    by_cases hk : k' = k
    · rw [if_pos hk, hk, get_map_set_self o k v h]
    · rw [if_neg hk, get_map_set_ne o k k' v hk]
  · rw [if_neg h, get_append_one]
    by_cases hk : k' = k
    · subst hk
      simp [Bool.not_eq_true] at h
      simp [h, get_of_not_hasKey o k' h]
    · have hkk : ¬(k = k') := fun hh => hk hh.symm
      by_cases hh : JSObj.hasKey o k' = true
      · simp [hh, hk]
      · simp [Bool.not_eq_true] at hh
        simp [hh, hk, hkk, get_of_not_hasKey o k' hh]

theorem map_set_idem (o : JSObj) (k : String) (v : Value) :
    (o.map (fun p => if p.1 = k then (k, v) else p)).map (fun p => if p.1 = k then (k, v) else p)
      = o.map (fun p => if p.1 = k then (k, v) else p) := by
  induction o with
  | nil => rfl
  | cons p rest ih =>
    by_cases hp : p.1 = k <;> simp [hp, ih]

theorem map_set_no_match (o : JSObj) (k : String) (v : Value) (h : JSObj.hasKey o k = false) :
    o.map (fun p => if p.1 = k then (k, v) else p) = o := by
  induction o with
  | nil => rfl
  | cons p rest ih =>
    rw [JSObj.hasKey] at h
    by_cases hp : p.1 = k
    · rw [if_pos hp] at h; exact absurd h (by simp)
    · rw [if_neg hp] at h
      simp [hp, ih h]

theorem set_set_same (o : JSObj) (k : String) (v : Value) :
    JSObj.set (JSObj.set o k v) k v = JSObj.set o k v := by
  have h2 : JSObj.hasKey (JSObj.set o k v) k = true := by rw [hasKey_set]; simp
  conv_lhs => rw [JSObj.set]
  rw [if_pos h2]
  by_cases h : JSObj.hasKey o k = true
  · rw [JSObj.set, if_pos h, map_set_idem]
  · rw [JSObj.set, if_neg h, List.map_append,
      map_set_no_match o k v (by simpa using h)]
    simp

theorem set_ne_nil (o : JSObj) (k : String) (v : Value) : JSObj.set o k v ≠ [] := by
  rw [JSObj.set]
  by_cases h : JSObj.hasKey o k = true
  · rw [if_pos h]
    cases o with
    | nil => simp [JSObj.hasKey] at h
    | cons p rest => simp
  · rw [if_neg h]; simp

/-- First-of-two options (used to state what the last write to a key was). -/
def optOr (a b : Option Value) : Option Value :=
  match a with
  | some w => some w
  | none => b

/-- The value of the last entry for key `k` in a write list, if any. -/
def lastVal : List (String × Value) → String → Option Value
  | [], _ => none
  | p :: rest, k => optOr (lastVal rest k) (if p.1 = k then some p.2 else none)

theorem optOr_none_right (a : Option Value) : optOr a none = a := by cases a <;> rfl

theorem optOr_assoc (a b c : Option Value) : optOr (optOr a b) c = optOr a (optOr b c) := by
  cases a <;> rfl

theorem optOr_absorb (a b : Option Value) : optOr (optOr a b) b = optOr a b := by
  cases a <;> cases b <;> rfl

theorem lastVal_append (a b : List (String × Value)) (k : String) :
    lastVal (a ++ b) k = optOr (lastVal b k) (lastVal a k) := by
  induction a with
  | nil => simp [lastVal, optOr_none_right]
  | cons p a' ih =>
    show optOr (lastVal (a' ++ b) k) _ = _
    rw [ih, optOr_assoc]
    rfl

theorem lastVal_map_set (o : JSObj) (k k' : String) (v : Value) :
    lastVal (o.map (fun p => if p.1 = k then (k, v) else p)) k' =
      (if k' = k then (if JSObj.hasKey o k then some v else none) else lastVal o k') := by
  induction o with
  | nil => by_cases hk : k' = k <;> simp [lastVal, JSObj.hasKey, hk]
  | cons p rest ih =>
    by_cases hp : p.1 = k
    · by_cases hk : k' = k
      · subst hk
        simp only [List.map, hp, if_pos, lastVal, ih, JSObj.hasKey]
        cases h : JSObj.hasKey rest k' <;> simp [h, optOr, hp]
      · have hkk : ¬(k = k') := fun hh => hk hh.symm
        simp [lastVal, hp, hk, hkk, ih, JSObj.hasKey, optOr_none_right]
    · by_cases hk : k' = k
      · subst hk
        have hpk : ¬(p.1 = k') := hp
        simp [lastVal, hp, hpk, ih, JSObj.hasKey, optOr_none_right]
      · simp [lastVal, hp, hk, ih]

theorem lastVal_one (k k' : String) (v : Value) :
    lastVal [(k, v)] k' = (if k = k' then some v else none) := by
  simp [lastVal, optOr]

theorem lastVal_set (o : JSObj) (k k' : String) (v : Value) :
    lastVal (JSObj.set o k v) k' = (if k' = k then some v else lastVal o k') := by
  rw [JSObj.set]
  by_cases h : JSObj.hasKey o k = true
  · rw [if_pos h, lastVal_map_set, h]
    by_cases hk : k' = k <;> simp [hk]
  · rw [if_neg h, lastVal_append, lastVal_one]
    by_cases hk : k' = k
    · subst hk; simp [optOr]
    · have hkk : ¬(k = k') := fun hh => hk hh.symm
      simp [hkk, hk, optOr]

theorem get_assign : ∀ (b : List (String × Value)) (a : JSObj) (k : String),
    JSObj.get (JSObj.assign a b) k = (lastVal b k).getD (JSObj.get a k)
  | [], a, k => rfl
  | p :: b', a, k => by
      show JSObj.get (JSObj.assign (JSObj.set a p.1 p.2) b') k = _
      rw [get_assign b' (JSObj.set a p.1 p.2) k, get_set]
      show _ = (optOr (lastVal b' k) (if p.1 = k then some p.2 else none)).getD (JSObj.get a k)
      cases lastVal b' k with
      | some w => rfl
      | none =>
        by_cases hk : p.1 = k
        · subst hk; simp [optOr]
        · have hkk : ¬(k = p.1) := fun hh => hk hh.symm
          simp [optOr, hk, hkk]

theorem hasKey_assign : ∀ (b : List (String × Value)) (a : JSObj) (k : String),
    JSObj.hasKey (JSObj.assign a b) k = ((lastVal b k).isSome || JSObj.hasKey a k)
  | [], a, k => by simp [lastVal]; rfl
  | p :: b', a, k => by
      show JSObj.hasKey (JSObj.assign (JSObj.set a p.1 p.2) b') k = _
      rw [hasKey_assign b' (JSObj.set a p.1 p.2) k, hasKey_set]
      cases h : lastVal b' k with
      | some w => simp [lastVal, h, optOr]
      | none =>
        by_cases hk : k = p.1
        · subst hk; simp [lastVal, h, optOr]
        · have hkk : ¬(p.1 = k) := fun hh => hk hh.symm
          simp [lastVal, h, optOr, hk, hkk]

theorem assign_append (a : JSObj) (b c : List (String × Value)) :
    JSObj.assign a (b ++ c) = JSObj.assign (JSObj.assign a b) c := by
  simp [JSObj.assign, List.foldl_append]

theorem assign_single_idem (ex : JSObj) (n : String) (v : Value) :
    JSObj.assign (JSObj.assign ex [(n, v)]) [(n, v)] = JSObj.assign ex [(n, v)] := by
  show JSObj.set (JSObj.set ex n v) n v = JSObj.set ex n v
  exact set_set_same ex n v

theorem assign_execParams_idem (p : JSObj) (name : String) (f : Value → Value) (ex : JSObj) :
    JSObj.assign (JSObj.assign ex (execValidation p name f).params)
        (execValidation p name f).params
      = JSObj.assign ex (execValidation p name f).params := by
  by_cases hf : f (JSObj.get p name) = Value.boolean true
  · rw [execValidation, if_pos hf]
    exact assign_single_idem ex name (JSObj.get p name)
  · rw [execValidation, if_neg hf]
    rfl

/-! ### Characterization of the logical-OR rule -/

theorem orFold_lastVal (pv : ParameterValidator) (p : JSObj) :
    ∀ (names : List String) (ex : JSObj) (k : String),
      lastVal (names.foldl (fun ex paramName =>
          if (pv.defaultValidation (JSObj.get p paramName)).truthy then
            JSObj.set ex paramName (JSObj.get p paramName)
          else ex) ex) k
        = (if k ∈ names ∧ (pv.defaultValidation (JSObj.get p k)).truthy
           then some (JSObj.get p k) else lastVal ex k)
  | [], ex, k => by simp
  | n :: ns, ex, k => by
      show lastVal (ns.foldl _
        (if (pv.defaultValidation (JSObj.get p n)).truthy then
          JSObj.set ex n (JSObj.get p n) else ex)) k = _
      rw [orFold_lastVal pv p ns _ k]
      by_cases hc : (pv.defaultValidation (JSObj.get p n)).truthy
      · rw [if_pos hc]
        by_cases hk : k ∈ ns ∧ (pv.defaultValidation (JSObj.get p k)).truthy
        · rw [if_pos hk, if_pos ⟨List.mem_cons_of_mem n hk.1, hk.2⟩]
        · rw [if_neg hk, lastVal_set]
          by_cases hkn : k = n
          · subst hkn
            rw [if_pos rfl, if_pos ⟨List.mem_cons_self k ns, hc⟩]
          · rw [if_neg hkn, if_neg (fun hh => hk ⟨(List.mem_cons.mp hh.1).resolve_left hkn, hh.2⟩)]
      · rw [if_neg hc]
        by_cases hk : k ∈ ns ∧ (pv.defaultValidation (JSObj.get p k)).truthy
        · rw [if_pos hk, if_pos ⟨List.mem_cons_of_mem n hk.1, hk.2⟩]
        · rw [if_neg hk]
          refine (if_neg (fun hh => ?_)).symm
          rcases List.mem_cons.mp hh.1 with hkn | hmem
          · subst hkn; exact hc hh.2
          · exact hk ⟨hmem, hh.2⟩

theorem orFold_eq_nil (pv : ParameterValidator) (p : JSObj) :
    ∀ (names : List String) (ex : JSObj),
      (names.foldl (fun ex paramName =>
          if (pv.defaultValidation (JSObj.get p paramName)).truthy then
            JSObj.set ex paramName (JSObj.get p paramName)
          else ex) ex = [])
        ↔ (ex = [] ∧ ∀ n ∈ names, ¬ (pv.defaultValidation (JSObj.get p n)).truthy)
  | [], ex => by simp
  | n :: ns, ex => by
      show (ns.foldl _
        (if (pv.defaultValidation (JSObj.get p n)).truthy then
          JSObj.set ex n (JSObj.get p n) else ex) = []) ↔ _
      rw [orFold_eq_nil pv p ns _]
      by_cases hc : (pv.defaultValidation (JSObj.get p n)).truthy
      · rw [if_pos hc]
        simp [set_ne_nil, hc]
      · rw [if_neg hc]
        simp [hc]

theorem performLogicalOr_lastVal (pv : ParameterValidator) (p : JSObj)
    (names : List String) (k : String) :
    lastVal (pv._performLogicalOrParamValidation p names).params k =
      (if k ∈ names ∧ (pv.defaultValidation (JSObj.get p k)).truthy
       then some (JSObj.get p k) else none) := by
  rw [ParameterValidator._performLogicalOrParamValidation]
  simp only []
  split
  · exact orFold_lastVal pv p names [] k
  · exact orFold_lastVal pv p names [] k

theorem performLogicalOr_errors (pv : ParameterValidator) (p : JSObj)
    (names : List String) (hn : names ≠ []) :
    (pv._performLogicalOrParamValidation p names).errors =
      (if ∀ n ∈ names, ¬ (pv.defaultValidation (JSObj.get p n)).truthy
       then ["One of the following parameters must be included: " ++ quoteList names ++ "."]
       else []) := by
  rw [ParameterValidator._performLogicalOrParamValidation]
  simp only []
  by_cases hall : ∀ n ∈ names, ¬ (pv.defaultValidation (JSObj.get p n)).truthy
  · have hnil := (orFold_eq_nil pv p names []).mpr ⟨rfl, hall⟩
    rw [if_pos hall, if_pos (by rw [hnil]; rfl)]
    rw [orMessage_eq names hn]
  · have hne : ¬(names.foldl (fun ex paramName =>
        if (pv.defaultValidation (JSObj.get p paramName)).truthy then
          JSObj.set ex paramName (JSObj.get p paramName)
        else ex) [] = []) :=
      fun hh => hall ((orFold_eq_nil pv p names []).mp hh).2
    rw [if_neg hall, if_neg (by simpa [List.length_eq_zero] using hne)]

/-! ### Decomposing the validate loop into its effects -/

/-- The effects of the `validate` loop on a given requirement list: the
sequence of property writes performed on `extractedParams` (with the object
branch's duplicated `Object.assign` kept), the error messages appended, and
the mid-loop thrown error if any. -/
def ParameterValidator.loopEffects (pv : ParameterValidator) (paramsProvided : JSObj) :
    List Requirement → List (String × Value) × List String × Option JSError
  | [] => ([], [], none)
  | paramRequirement :: rest =>
    match paramRequirement with
    | .arr (n :: ns) =>
        let res := pv._performLogicalOrParamValidation paramsProvided (n :: ns)
        let t := pv.loopEffects paramsProvided rest
        (res.params ++ t.1, res.errors ++ t.2.1, t.2.2)
    | .arr [] =>
        ([], [], some (.Error "A paramRequirement value provided for the parameter undefined is not a function."))
    | .obj [] =>
        ([], [], some (.Error "A paramRequirement value provided for the parameter undefined is not a function."))
    | .obj ((paramName, .plain _) :: _) =>
        ([], [], some (.Error ("A paramRequirement value provided for the parameter " ++
          paramName ++ " is not a function.")))
    | .obj ((paramName, .fn f) :: _) =>
        let res := execValidation paramsProvided paramName f
        let t := pv.loopEffects paramsProvided rest
        (res.params ++ (res.params ++ t.1), res.errors ++ t.2.1, t.2.2)
    | .null => ([], [], some (.TypeError "Cannot convert undefined or null to object"))
    | .str s =>
        if s = "" then pv.loopEffects paramsProvided rest
        else
          let res := execValidation paramsProvided s pv.defaultValidation
          let t := pv.loopEffects paramsProvided rest
          (res.params ++ t.1, res.errors ++ t.2.1, t.2.2)
    | .number _ => pv.loopEffects paramsProvided rest
    | .boolean _ => pv.loopEffects paramsProvided rest
    | .undefined => pv.loopEffects paramsProvided rest

theorem validateLoop_eq_effects (pv : ParameterValidator) (p : JSObj) :
    ∀ (R : List Requirement) (ex : JSObj) (errs : List String),
      pv.validateLoop p R ex errs =
        (JSObj.assign ex (pv.loopEffects p R).1,
         errs ++ (pv.loopEffects p R).2.1,
         (pv.loopEffects p R).2.2)
  | [], ex, errs => by
      simp [ParameterValidator.validateLoop, ParameterValidator.loopEffects, JSObj.assign]
  | .arr (n :: ns) :: rest, ex, errs => by
      rw [ParameterValidator.validateLoop]
      rw [validateLoop_eq_effects pv p rest]
      simp only [ParameterValidator.loopEffects]
      rw [assign_append, List.append_assoc]
  | .arr [] :: rest, ex, errs => by
      rw [ParameterValidator.validateLoop]
      simp [ParameterValidator.loopEffects, executeValidationFunction, JSObj.assign]
  | .obj [] :: rest, ex, errs => by
      rw [ParameterValidator.validateLoop]
      simp [ParameterValidator.loopEffects, executeValidationFunction, JSObj.assign]
  | .obj ((paramName, .plain v) :: entries) :: rest, ex, errs => by
      rw [ParameterValidator.validateLoop]
      simp [ParameterValidator.loopEffects, executeValidationFunction, JSObj.assign]
  | .obj ((paramName, .fn f) :: entries) :: rest, ex, errs => by
      rw [ParameterValidator.validateLoop]
      show pv.validateLoop p rest
          (JSObj.assign (JSObj.assign ex (execValidation p paramName f).params)
            (execValidation p paramName f).params)
          (errs ++ (execValidation p paramName f).errors) = _
      rw [validateLoop_eq_effects pv p rest]
      simp only [ParameterValidator.loopEffects]
      rw [← assign_append, ← assign_append, List.append_assoc]
  | .null :: rest, ex, errs => by
      rw [ParameterValidator.validateLoop]
      simp [ParameterValidator.loopEffects, JSObj.assign]
  | .str s :: rest, ex, errs => by
      rw [ParameterValidator.validateLoop]
      by_cases hs : s = ""
      · rw [if_pos hs, validateLoop_eq_effects pv p rest]
        simp only [ParameterValidator.loopEffects, if_pos hs]
      · rw [if_neg hs]
        show pv.validateLoop p rest
            (JSObj.assign ex (execValidation p s pv.defaultValidation).params)
            (errs ++ (execValidation p s pv.defaultValidation).errors) = _
        rw [validateLoop_eq_effects pv p rest]
        simp only [ParameterValidator.loopEffects, if_neg hs]
        rw [assign_append, List.append_assoc]
  | .number n :: rest, ex, errs => by
      rw [ParameterValidator.validateLoop, validateLoop_eq_effects pv p rest]
      simp only [ParameterValidator.loopEffects]
  | .boolean b :: rest, ex, errs => by
      rw [ParameterValidator.validateLoop, validateLoop_eq_effects pv p rest]
      simp only [ParameterValidator.loopEffects]
  | .undefined :: rest, ex, errs => by
      rw [ParameterValidator.validateLoop, validateLoop_eq_effects pv p rest]
      simp only [ParameterValidator.loopEffects]

/-- The three requirement shapes the validator recognizes and fully
processes: a non-empty array of names, an object whose single key carries a
function, and a non-empty string. -/
inductive Requirement.validShape : Requirement → Prop
  | arr (n : String) (ns : List String) : Requirement.validShape (.arr (n :: ns))
  | obj (name : String) (f : Value → Value) : Requirement.validShape (.obj [(name, .fn f)])
  | str (s : String) (h : s ≠ "") : Requirement.validShape (.str s)

/-- The requirement shapes the loop's dispatch skips entirely: empty
strings, numbers, booleans and `undefined` (not of JS type `object` and not
non-empty strings). -/
inductive Requirement.ignoredShape : Requirement → Prop
  | emptyStr : Requirement.ignoredShape (.str "")
  | number (n : Int) : Requirement.ignoredShape (.number n)
  | boolean (b : Bool) : Requirement.ignoredShape (.boolean b)
  | undefined : Requirement.ignoredShape .undefined

/-- The error messages a single requirement contributes (empty when it is
satisfied or skipped). -/
def ruleErrors (pv : ParameterValidator) (p : JSObj) : Requirement → List String
  | .arr (n :: ns) => (pv._performLogicalOrParamValidation p (n :: ns)).errors
  | .obj ((name, .fn f) :: _) => (execValidation p name f).errors
  | .str s => if s = "" then [] else (execValidation p s pv.defaultValidation).errors
  | _ => []

/-- The extracted name/value pairs a single requirement contributes. -/
def ruleParams (pv : ParameterValidator) (p : JSObj) : Requirement → List (String × Value)
  | .arr (n :: ns) => (pv._performLogicalOrParamValidation p (n :: ns)).params
  | .obj ((name, .fn f) :: _) => (execValidation p name f).params
  | .str s => if s = "" then [] else (execValidation p s pv.defaultValidation).params
  | _ => []

theorem loopEffects_validShape (pv : ParameterValidator) (p : JSObj) :
    ∀ (R : List Requirement), (∀ r ∈ R, r.validShape) →
      (pv.loopEffects p R).2.2 = none ∧
      (pv.loopEffects p R).2.1 = R.flatMap (ruleErrors pv p) ∧
      ∀ k, lastVal (pv.loopEffects p R).1 k = lastVal (R.flatMap (ruleParams pv p)) k
  | [], _ => by simp [ParameterValidator.loopEffects, lastVal]
  | r :: R, h => by
      have hr : r.validShape := h r (List.mem_cons_self r R)
      have hR : ∀ r' ∈ R, r'.validShape := fun r' hr' => h r' (List.mem_cons_of_mem r hr')
      obtain ⟨h1, h2, h3⟩ := loopEffects_validShape pv p R hR
      cases hr with
      | arr n ns =>
        refine ⟨h1, ?_, ?_⟩
        · simp [ParameterValidator.loopEffects, ruleErrors, h2]
        · intro k
          show lastVal ((pv._performLogicalOrParamValidation p (n :: ns)).params
            ++ (pv.loopEffects p R).1) k = _
          rw [lastVal_append, h3 k, List.flatMap_cons, lastVal_append]
          rfl
      | obj name f =>
        refine ⟨h1, ?_, ?_⟩
        · simp [ParameterValidator.loopEffects, ruleErrors, h2]
        · intro k
          show lastVal ((execValidation p name f).params
            ++ ((execValidation p name f).params ++ (pv.loopEffects p R).1)) k = _
          rw [lastVal_append, lastVal_append, optOr_absorb, h3 k,
            List.flatMap_cons, lastVal_append]
          rfl
      | str s hs =>
        have hred : pv.loopEffects p (Requirement.str s :: R) =
            ((execValidation p s pv.defaultValidation).params ++ (pv.loopEffects p R).1,
             (execValidation p s pv.defaultValidation).errors ++ (pv.loopEffects p R).2.1,
             (pv.loopEffects p R).2.2) := by
          show (if s = "" then pv.loopEffects p R else _) = _
          rw [if_neg hs]
        rw [hred]
        refine ⟨h1, ?_, ?_⟩
        · show (execValidation p s pv.defaultValidation).errors ++ (pv.loopEffects p R).2.1 = _
          rw [h2, List.flatMap_cons, ruleErrors, if_neg hs]
        · intro k
          show lastVal ((execValidation p s pv.defaultValidation).params
            ++ (pv.loopEffects p R).1) k = _
          rw [lastVal_append, h3 k, List.flatMap_cons, lastVal_append, ruleParams, if_neg hs]

theorem loopEffects_skip (pv : ParameterValidator) (p : JSObj) (r : Requirement)
    (hr : r.ignoredShape) :
    ∀ (R1 R2 : List Requirement),
      pv.loopEffects p (R1 ++ r :: R2) = pv.loopEffects p (R1 ++ R2)
  | [], R2 => by
      cases hr with
      | emptyStr => simp [ParameterValidator.loopEffects]
      | number n => simp [ParameterValidator.loopEffects]
      | boolean b => simp [ParameterValidator.loopEffects]
      | undefined => simp [ParameterValidator.loopEffects]
  | a :: R1, R2 => by
      have ih := loopEffects_skip pv p r hr R1 R2
      show pv.loopEffects p (a :: (R1 ++ r :: R2)) = pv.loopEffects p (a :: (R1 ++ R2))
      cases a with
      | arr names =>
        cases names with
        | nil => simp [ParameterValidator.loopEffects]
        | cons n ns => simp [ParameterValidator.loopEffects, ih]
      | obj entries =>
        cases entries with
        | nil => simp [ParameterValidator.loopEffects]
        | cons e tl =>
          obtain ⟨name, rv⟩ := e
          cases rv with
          | fn f => simp [ParameterValidator.loopEffects, ih]
          | plain v => simp [ParameterValidator.loopEffects]
      | null => simp [ParameterValidator.loopEffects]
      | str s => by_cases hs : s = "" <;> simp [ParameterValidator.loopEffects, hs, ih]
      | number n => simp [ParameterValidator.loopEffects, ih]
      | boolean b => simp [ParameterValidator.loopEffects, ih]
      | undefined => simp [ParameterValidator.loopEffects, ih]

theorem validate_eq_of_effects (pv : ParameterValidator) (p t : JSObj)
    (Ra Rb : List Requirement) (he : pv.loopEffects p Ra = pv.loopEffects p Rb) :
    pv.validate (some p) (some Ra) t = pv.validate (some p) (some Rb) t := by
  have hl : pv.validateLoop p Ra t [] = pv.validateLoop p Rb t [] := by
    rw [validateLoop_eq_effects, validateLoop_eq_effects, he]
  simp only [ParameterValidator.validate, hl]

/-! ### Variant with the duplicated merge performed once (for claim C9) -/

/-- Variant of the `validate` loop, following the spec's remark, whose
object branch performs the `Object.assign` merge only once; otherwise
identical to `ParameterValidator.validateLoop`. -/
def ParameterValidator.validateLoopSingleMerge (pv : ParameterValidator) (paramsProvided : JSObj) :
    List Requirement → JSObj → List String → JSObj × List String × Option JSError
  | [], extractedParams, errors => (extractedParams, errors, none)
  | paramRequirement :: rest, extractedParams, errors =>
    match paramRequirement with
    | .arr (n :: ns) =>
        let validationResult := pv._performLogicalOrParamValidation paramsProvided (n :: ns)
        pv.validateLoopSingleMerge paramsProvided rest
          (JSObj.assign extractedParams validationResult.params)
          (errors ++ validationResult.errors)
    | .arr [] =>
        (match executeValidationFunction paramsProvided "undefined" (.plain .undefined) with
         | .error e => (extractedParams, errors, some e)
         | .ok validationResult =>
             pv.validateLoopSingleMerge paramsProvided rest
               (JSObj.assign extractedParams validationResult.params)
               (errors ++ validationResult.errors))
    | .obj [] =>
        (match executeValidationFunction paramsProvided "undefined" (.plain .undefined) with
         | .error e => (extractedParams, errors, some e)
         | .ok validationResult =>
             pv.validateLoopSingleMerge paramsProvided rest
               (JSObj.assign extractedParams validationResult.params)
               (errors ++ validationResult.errors))
    | .obj ((paramName, validationFunction) :: _) =>
        (match executeValidationFunction paramsProvided paramName validationFunction with
         | .error e => (extractedParams, errors, some e)
         | .ok validationResult =>
             pv.validateLoopSingleMerge paramsProvided rest
               (JSObj.assign extractedParams validationResult.params)
               (errors ++ validationResult.errors))
    | .null => (extractedParams, errors, some (.TypeError "Cannot convert undefined or null to object"))
    | .str s =>
        if s = "" then pv.validateLoopSingleMerge paramsProvided rest extractedParams errors
        else
          (match executeValidationFunction paramsProvided s (.fn pv.defaultValidation) with
           | .error e => (extractedParams, errors, some e)
           | .ok validationResult =>
               pv.validateLoopSingleMerge paramsProvided rest
                 (JSObj.assign extractedParams validationResult.params)
                 (errors ++ validationResult.errors))
    | .number _ => pv.validateLoopSingleMerge paramsProvided rest extractedParams errors
    | .boolean _ => pv.validateLoopSingleMerge paramsProvided rest extractedParams errors
    | .undefined => pv.validateLoopSingleMerge paramsProvided rest extractedParams errors

/-- `validate` built on the single-merge loop (the spec's "merge once"). -/
def ParameterValidator.validateSingleMerge (pv : ParameterValidator)
    (paramsProvided : Option JSObj) (paramRequirements : Option (List Requirement))
    (extractedParams : JSObj) : ValidateOutcome :=
  match paramsProvided with
  | none =>
      ⟨extractedParams, paramsProvided,
        some (.ParameterValidationError "A paramsProvided object is required.")⟩
  | some provided =>
    match paramRequirements with
    | none => ⟨extractedParams, paramsProvided, some (.Error "paramRequirements must be an array.")⟩
    | some reqs =>
      match pv.validateLoopSingleMerge provided reqs extractedParams [] with
      | (ex, _, some e) => ⟨ex, paramsProvided, some e⟩
      | (ex, errors, none) =>
        if errors.length ≠ 0 then
          let errorMessage := errors.foldl (fun m e => m ++ (e ++ " ")) ""
          ⟨ex, paramsProvided, some (.ParameterValidationError (jsSliceDropLast errorMessage))⟩
        else ⟨ex, paramsProvided, none⟩

theorem validateLoopSingleMerge_eq (pv : ParameterValidator) (p : JSObj) :
    ∀ (R : List Requirement) (ex : JSObj) (errs : List String),
      pv.validateLoop p R ex errs = pv.validateLoopSingleMerge p R ex errs
  | [], ex, errs => rfl
  | .arr (n :: ns) :: rest, ex, errs => by
      rw [ParameterValidator.validateLoop, ParameterValidator.validateLoopSingleMerge]
      exact validateLoopSingleMerge_eq pv p rest _ _
  | .arr [] :: rest, ex, errs => by
      rw [ParameterValidator.validateLoop, ParameterValidator.validateLoopSingleMerge]
      simp only [executeValidationFunction]
  | .obj [] :: rest, ex, errs => by
      rw [ParameterValidator.validateLoop, ParameterValidator.validateLoopSingleMerge]
      simp only [executeValidationFunction]
  | .obj ((paramName, .plain v) :: entries) :: rest, ex, errs => by
      rw [ParameterValidator.validateLoop, ParameterValidator.validateLoopSingleMerge]
      simp only [executeValidationFunction]
  | .obj ((paramName, .fn f) :: entries) :: rest, ex, errs => by
      rw [ParameterValidator.validateLoop, ParameterValidator.validateLoopSingleMerge]
      show pv.validateLoop p rest
          (JSObj.assign (JSObj.assign ex (execValidation p paramName f).params)
            (execValidation p paramName f).params)
          (errs ++ (execValidation p paramName f).errors)
        = pv.validateLoopSingleMerge p rest
            (JSObj.assign ex (execValidation p paramName f).params)
            (errs ++ (execValidation p paramName f).errors)
      rw [assign_execParams_idem]
      exact validateLoopSingleMerge_eq pv p rest _ _
  | .null :: rest, ex, errs => rfl
  | .str s :: rest, ex, errs => by
      rw [ParameterValidator.validateLoop, ParameterValidator.validateLoopSingleMerge]
      by_cases hs : s = ""
      · rw [if_pos hs, if_pos hs]
        exact validateLoopSingleMerge_eq pv p rest _ _
      · rw [if_neg hs, if_neg hs]
        show pv.validateLoop p rest
            (JSObj.assign ex (execValidation p s pv.defaultValidation).params)
            (errs ++ (execValidation p s pv.defaultValidation).errors)
          = pv.validateLoopSingleMerge p rest
              (JSObj.assign ex (execValidation p s pv.defaultValidation).params)
              (errs ++ (execValidation p s pv.defaultValidation).errors)
        exact validateLoopSingleMerge_eq pv p rest _ _
  | .number n :: rest, ex, errs => by
      rw [ParameterValidator.validateLoop, ParameterValidator.validateLoopSingleMerge]
      exact validateLoopSingleMerge_eq pv p rest _ _
  | .boolean b :: rest, ex, errs => by
      rw [ParameterValidator.validateLoop, ParameterValidator.validateLoopSingleMerge]
      exact validateLoopSingleMerge_eq pv p rest _ _
  | .undefined :: rest, ex, errs => by
      rw [ParameterValidator.validateLoop, ParameterValidator.validateLoopSingleMerge]
      exact validateLoopSingleMerge_eq pv p rest _ _

/-! ### Unfolding validate -/

theorem validate_some (pv : ParameterValidator) (p t : JSObj) (R : List Requirement) :
    pv.validate (some p) (some R) t =
      (match pv.validateLoop p R t [] with
       | (ex, _, some e) => ⟨ex, some p, some e⟩
       | (ex, errors, none) =>
         if errors.length ≠ 0 then
           ⟨ex, some p, some (.ParameterValidationError
             (jsSliceDropLast (errors.foldl (fun m e => m ++ (e ++ " ")) "")))⟩
         else ⟨ex, some p, none⟩) := rfl

theorem validate_components (pv : ParameterValidator) (p t : JSObj) (R : List Requirement)
    (ex : JSObj) (errs : List String)
    (hloop : pv.validateLoop p R t [] = (ex, errs, none)) :
    pv.validate (some p) (some R) t =
      (if errs = [] then (⟨ex, some p, none⟩ : ValidateOutcome)
       else ⟨ex, some p, some (.ParameterValidationError (joinSpace errs))⟩) := by
  rw [validate_some, hloop]
  show (if (errs.length ≠ 0) then
      (⟨ex, some p, some (.ParameterValidationError
        (jsSliceDropLast (errs.foldl (fun m e => m ++ (e ++ " ")) "")))⟩ : ValidateOutcome)
    else ⟨ex, some p, none⟩) = _
  by_cases hmsg : errs = []
  · rw [if_pos hmsg, hmsg]
    simp
  · rw [if_neg hmsg, if_pos (fun hh => hmsg (List.length_eq_zero.mp hh)),
      errMessage_eq errs hmsg]

theorem validate_of_effects (pv : ParameterValidator) (p t : JSObj) (R : List Requirement)
    (h1 : (pv.loopEffects p R).2.2 = none) :
    pv.validate (some p) (some R) t =
      (if (pv.loopEffects p R).2.1 = [] then
        (⟨JSObj.assign t (pv.loopEffects p R).1, some p, none⟩ : ValidateOutcome)
       else
        ⟨JSObj.assign t (pv.loopEffects p R).1, some p,
          some (.ParameterValidationError (joinSpace (pv.loopEffects p R).2.1))⟩) :=
  validate_components pv p t R _ _ (by rw [validateLoop_eq_effects, h1]; rfl)

theorem assign_target_pointwise (t : JSObj) (ops : List (String × Value)) (k : String) :
    JSObj.get (JSObj.assign t ops) k =
      (if JSObj.hasKey (JSObj.assign [] ops) k then JSObj.get (JSObj.assign [] ops) k
       else JSObj.get t k) := by
  rw [get_assign, get_assign, hasKey_assign]
  cases lastVal ops k with
  | some w => simp
  | none => simp [JSObj.hasKey, JSObj.get]

/-! ### Claim theorems -/

/-- C3 (counterexample): constructing with a non-callable `defaultValidation`
does NOT raise a plain generic error — the constructor throws a
`ParameterValidationError`, i.e. an error of the ValidationError kind. -/
theorem newParameterValidator_nonFunction_kind :
    newParameterValidator (some (.nonFunction (.number 5))) =
      .error (.ParameterValidationError
        "The optional defaultValidation parameter provided is not a function.") := rfl

/-- C3 (amended): construction with a present non-callable
`defaultValidation` raises a `ParameterValidationError` (not a plain
generic error); construction with no options, an absent field, or a
callable field succeeds, and a supplied function becomes the instance's
default validity predicate (with `isDefined` as the fallback). -/
theorem newParameterValidator_spec (f : Value → Value) (v : Value) :
    newParameterValidator none = .ok ⟨none⟩ ∧
    newParameterValidator (some .undef) = .ok ⟨none⟩ ∧
    newParameterValidator (some (.fn f)) = .ok ⟨some f⟩ ∧
    (ParameterValidator.mk (some f)).defaultValidation = f ∧
    (ParameterValidator.mk none).defaultValidation = isDefined ∧
    newParameterValidator (some (.nonFunction v)) =
      .error (.ParameterValidationError
        "The optional defaultValidation parameter provided is not a function.") :=
  ⟨rfl, rfl, rfl, rfl, rfl, rfl⟩

/-- C6: a falsy/absent `paramsProvided` raises a `ParameterValidationError`
with message `A paramsProvided object is required.`; a present
`paramsProvided` with a non-array `paramRequirements` raises a plain
generic `Error` with message `paramRequirements must be an array.`, with
no requirement evaluated (the extraction target is untouched). -/
theorem validate_input_contracts (pv : ParameterValidator) (t P : JSObj)
    (reqs : Option (List Requirement)) :
    pv.validate none reqs t =
      ⟨t, none, some (.ParameterValidationError "A paramsProvided object is required.")⟩ ∧
    pv.validate (some P) none t =
      ⟨t, some P, some (.Error "paramRequirements must be an array.")⟩ :=
  ⟨rfl, rfl⟩

/-- C8: `validateAsync` rejects with exactly the error (same kind and
message) that `validate` would throw, and fulfills with exactly the
extraction mapping `validate` would return; it always yields a settled
promise (never a synchronous throw), with the callback deferred by
`Promise.resolve().then`. -/
theorem validateAsync_refines_validate (pv : ParameterValidator)
    (paramsProvided : Option JSObj) (paramRequirements : Option (List Requirement))
    (extractedParams : JSObj) :
    (∀ e : JSError,
      pv.validateAsync paramsProvided paramRequirements extractedParams = .rejected e ↔
        (pv.validate paramsProvided paramRequirements extractedParams).thrown = some e) ∧
    (∀ ex : JSObj,
      pv.validateAsync paramsProvided paramRequirements extractedParams = .fulfilled ex ↔
        ((pv.validate paramsProvided paramRequirements extractedParams).thrown = none ∧
         (pv.validate paramsProvided paramRequirements extractedParams).extractedParams = ex)) := by
  cases hthr : (pv.validate paramsProvided paramRequirements extractedParams).thrown with
  | some e' =>
    refine ⟨fun e => ?_, fun ex => ?_⟩
    · simp [ParameterValidator.validateAsync, promiseThen, promiseResolve,
        ValidateOutcome.toExcept, hthr]
    · simp [ParameterValidator.validateAsync, promiseThen, promiseResolve,
        ValidateOutcome.toExcept, hthr]
  | none =>
    refine ⟨fun e => ?_, fun ex => ?_⟩
    · simp [ParameterValidator.validateAsync, promiseThen, promiseResolve,
        ValidateOutcome.toExcept, hthr]
    · simp [ParameterValidator.validateAsync, promiseThen, promiseResolve,
        ValidateOutcome.toExcept, hthr, eq_comm]

/-- C9: the duplicated `Object.assign` in the custom-predicate branch is a
no-op — `validate` as written agrees, on every input, with the variant
that merges the branch's extracted parameters only once. -/
theorem validate_duplicate_merge_noop (pv : ParameterValidator)
    (paramsProvided : Option JSObj) (paramRequirements : Option (List Requirement))
    (extractedParams : JSObj) :
    pv.validate paramsProvided paramRequirements extractedParams =
      pv.validateSingleMerge paramsProvided paramRequirements extractedParams := by
  cases paramsProvided with
  | none => rfl
  | some p =>
    cases paramRequirements with
    | none => rfl
    | some R =>
      have hl := validateLoopSingleMerge_eq pv p R extractedParams []
      simp only [ParameterValidator.validate, ParameterValidator.validateSingleMerge, hl]

/-- C2 (counterexample): an empty-array requirement is not silently
ignored — it makes `validate` throw a plain `Error` (the empty array is of
JS type `object`, `Object.keys` of it is a truthy empty array, and the
value at its first key, `undefined`, is not a function). -/
theorem validate_empty_array_requirement_throws :
    (parameterValidator.validate (some []) (some [Requirement.arr []]) []).thrown =
      some (.Error
        "A paramRequirement value provided for the parameter undefined is not a function.") := by
  decide

/-- C2 (amended): requirement items that are numbers, booleans, empty
strings or `undefined` are silently ignored (removing such an item leaves
`validate`'s entire outcome unchanged); but an empty array or empty object
requirement raises a plain `Error` about the parameter `undefined` not
having a function, a `null` requirement raises a `TypeError` from
`Object.keys`, and an object with more than one key is processed as a
custom-predicate rule on its first key rather than ignored. -/
theorem validate_lenient_fallthrough (pv : ParameterValidator) (p t : JSObj)
    (R1 R2 : List Requirement) (r : Requirement) (name : String) (rv : ReqValue)
    (entries : List (String × ReqValue)) (h : r.ignoredShape) :
    pv.validate (some p) (some (R1 ++ r :: R2)) t = pv.validate (some p) (some (R1 ++ R2)) t ∧
    (pv.validate (some p) (some [Requirement.arr []]) t).thrown =
      some (.Error
        "A paramRequirement value provided for the parameter undefined is not a function.") ∧
    (pv.validate (some p) (some [Requirement.obj []]) t).thrown =
      some (.Error
        "A paramRequirement value provided for the parameter undefined is not a function.") ∧
    (pv.validate (some p) (some [Requirement.null]) t).thrown =
      some (.TypeError "Cannot convert undefined or null to object") ∧
    pv.validate (some p) (some [Requirement.obj ((name, rv) :: entries)]) t =
      pv.validate (some p) (some [Requirement.obj [(name, rv)]]) t :=
  ⟨validate_eq_of_effects pv p t _ _ (loopEffects_skip pv p r h R1 R2), rfl, rfl, rfl, rfl⟩

/-- C2 (witness for the amended theorem): a number requirement item is
ignored at a concrete input. -/
theorem validate_lenient_fallthrough_witness :
    Requirement.ignoredShape (.number 5) ∧
    (parameterValidator.validate (some [("a", Value.number 1)])
        (some ([Requirement.str "a"] ++ Requirement.number 5 :: [Requirement.str "b"])) []
      = parameterValidator.validate (some [("a", Value.number 1)])
        (some ([Requirement.str "a"] ++ [Requirement.str "b"])) [] ∧
    (parameterValidator.validate (some [("a", Value.number 1)])
        (some [Requirement.arr []]) []).thrown =
      some (.Error
        "A paramRequirement value provided for the parameter undefined is not a function.") ∧
    (parameterValidator.validate (some [("a", Value.number 1)])
        (some [Requirement.obj []]) []).thrown =
      some (.Error
        "A paramRequirement value provided for the parameter undefined is not a function.") ∧
    (parameterValidator.validate (some [("a", Value.number 1)])
        (some [Requirement.null]) []).thrown =
      some (.TypeError "Cannot convert undefined or null to object") ∧
    parameterValidator.validate (some [("a", Value.number 1)])
        (some [Requirement.obj [("x", ReqValue.plain Value.null), ("y", ReqValue.plain Value.null)]]) []
      = parameterValidator.validate (some [("a", Value.number 1)])
        (some [Requirement.obj [("x", ReqValue.plain Value.null)]]) []) :=
  ⟨Requirement.ignoredShape.number 5,
   validate_lenient_fallthrough parameterValidator [("a", Value.number 1)] []
     [Requirement.str "a"] [Requirement.str "b"] (Requirement.number 5)
     "x" (ReqValue.plain Value.null) [("y", ReqValue.plain Value.null)]
     (Requirement.ignoredShape.number 5)⟩

/-- C1: over requirement lists of valid shapes, `validate` evaluates every
requirement in one pass without short-circuiting: if any rule fails it
throws a `ParameterValidationError` whose message is exactly every failing
rule's message joined by single spaces, in list order; if no rule fails it
throws nothing. -/
theorem validate_single_pass_accumulates (pv : ParameterValidator) (p : JSObj)
    (R : List Requirement) (h : ∀ r ∈ R, r.validShape) :
    (pv.validate (some p) (some R) []).thrown =
      (if R.flatMap (ruleErrors pv p) = [] then none
       else some (.ParameterValidationError (joinSpace (R.flatMap (ruleErrors pv p))))) := by
  obtain ⟨h1, h2, h3⟩ := loopEffects_validShape pv p R h
  rw [validate_of_effects pv p [] R h1]
  simp only [h2]
  by_cases hmsg : R.flatMap (ruleErrors pv p) = []
  · rw [if_pos hmsg, if_pos hmsg]
  · rw [if_neg hmsg, if_neg hmsg]

/-- C1 (witness): two failing required-string rules at a concrete input. -/
theorem validate_single_pass_accumulates_witness :
    (∀ r ∈ [Requirement.str "a", Requirement.str "b"], r.validShape) ∧
    (parameterValidator.validate (some [])
        (some [Requirement.str "a", Requirement.str "b"]) []).thrown =
      (if [Requirement.str "a", Requirement.str "b"].flatMap (ruleErrors parameterValidator []) = []
       then none
       else some (.ParameterValidationError
         (joinSpace ([Requirement.str "a", Requirement.str "b"].flatMap
           (ruleErrors parameterValidator []))))) := by
  have hv : ∀ r ∈ [Requirement.str "a", Requirement.str "b"], r.validShape := by
    intro r hr
    simp only [List.mem_cons, List.not_mem_nil, or_false] at hr
    rcases hr with rfl | rfl
    · exact Requirement.validShape.str "a" (by decide)
    · exact Requirement.validShape.str "b" (by decide)
  exact ⟨hv, validate_single_pass_accumulates parameterValidator [] _ hv⟩

/-- C10: `validate` is not atomic on validation failure — when a
`ParameterValidationError` is thrown, the caller-supplied target object
already holds every parameter the passing rules merged (last write per
key), and keys the rules never wrote still hold the target's old values;
nothing is rolled back. -/
theorem validate_failure_no_rollback (pv : ParameterValidator) (p t : JSObj)
    (R : List Requirement) (k : String) (hshape : ∀ r ∈ R, r.validShape)
    (hfail : R.flatMap (ruleErrors pv p) ≠ []) :
    (pv.validate (some p) (some R) t).thrown =
      some (.ParameterValidationError (joinSpace (R.flatMap (ruleErrors pv p)))) ∧
    JSObj.get (pv.validate (some p) (some R) t).extractedParams k =
      (lastVal (R.flatMap (ruleParams pv p)) k).getD (JSObj.get t k) := by
  obtain ⟨h1, h2, h3⟩ := loopEffects_validShape pv p R hshape
  rw [validate_of_effects pv p t R h1]
  simp only [h2]
  rw [if_neg hfail]
  refine ⟨rfl, ?_⟩
  show JSObj.get (JSObj.assign t (pv.loopEffects p R).1) k = _
  rw [get_assign, h3 k]

/-- C10 (witness): rule `"a"` passes and is on the caller's target when the
error for rule `"b"` is thrown. -/
theorem validate_failure_no_rollback_witness :
    ((∀ r ∈ [Requirement.str "a", Requirement.str "b"], r.validShape) ∧
      [Requirement.str "a", Requirement.str "b"].flatMap
        (ruleErrors parameterValidator [("a", Value.number 1)]) ≠ []) ∧
    ((parameterValidator.validate (some [("a", Value.number 1)])
        (some [Requirement.str "a", Requirement.str "b"]) [("z", Value.number 9)]).thrown =
      some (.ParameterValidationError
        (joinSpace ([Requirement.str "a", Requirement.str "b"].flatMap
          (ruleErrors parameterValidator [("a", Value.number 1)])))) ∧
     JSObj.get (parameterValidator.validate (some [("a", Value.number 1)])
        (some [Requirement.str "a", Requirement.str "b"]) [("z", Value.number 9)]).extractedParams "a" =
      (lastVal ([Requirement.str "a", Requirement.str "b"].flatMap
        (ruleParams parameterValidator [("a", Value.number 1)])) "a").getD
        (JSObj.get [("z", Value.number 9)] "a")) := by
  have hv : ∀ r ∈ [Requirement.str "a", Requirement.str "b"], r.validShape := by
    intro r hr
    simp only [List.mem_cons, List.not_mem_nil, or_false] at hr
    rcases hr with rfl | rfl
    · exact Requirement.validShape.str "a" (by decide)
    · exact Requirement.validShape.str "b" (by decide)
  exact ⟨⟨hv, by decide⟩,
    validate_failure_no_rollback parameterValidator [("a", Value.number 1)]
      [("z", Value.number 9)] [Requirement.str "a", Requirement.str "b"] "a" hv (by decide)⟩

/-- C7: a caller-supplied extraction target is the object the merges are
applied to and the one carried in the outcome (keys never written keep the
target's values, written keys get the same values a fresh-target run
produces, and the thrown error is unaffected by the target), and the
`paramsProvided` input comes back unmutated. -/
theorem validate_target_and_input (pv : ParameterValidator) (p t : JSObj)
    (R : List Requirement) (k : String) :
    (pv.validate (some p) (some R) t).paramsProvided = some p ∧
    (pv.validate (some p) (some R) t).thrown = (pv.validate (some p) (some R) []).thrown ∧
    JSObj.get (pv.validate (some p) (some R) t).extractedParams k =
      (if JSObj.hasKey (pv.validate (some p) (some R) []).extractedParams k
       then JSObj.get (pv.validate (some p) (some R) []).extractedParams k
       else JSObj.get t k) := by
  cases he : (pv.loopEffects p R).2.2 with
  | some e =>
    have ht : ∀ (u : JSObj), pv.validate (some p) (some R) u =
        ⟨JSObj.assign u (pv.loopEffects p R).1, some p, some e⟩ := fun u => by
      rw [validate_some, validateLoop_eq_effects, he]
    rw [ht t, ht []]
    exact ⟨rfl, rfl, assign_target_pointwise t _ k⟩
  | none =>
    rw [validate_of_effects pv p t R he, validate_of_effects pv p [] R he]
    by_cases hmsg : (pv.loopEffects p R).2.1 = []
    · rw [if_pos hmsg, if_pos hmsg]
      exact ⟨rfl, rfl, assign_target_pointwise t _ k⟩
    · rw [if_neg hmsg, if_neg hmsg]
      exact ⟨rfl, rfl, assign_target_pointwise t _ k⟩

/-- C4: a non-empty-array requirement tests every named value with the
default validity predicate; each passing name/value pair is merged into
the extraction result; when at least one passes no error is raised, and
when none passes `validate` throws the single message listing all
candidate names quoted and comma-joined. -/
theorem validate_logical_or_rule (pv : ParameterValidator) (p : JSObj)
    (names : List String) (k : String) (h : names ≠ []) :
    JSObj.get (pv.validate (some p) (some [Requirement.arr names]) []).extractedParams k =
      (if k ∈ names ∧ (pv.defaultValidation (JSObj.get p k)).truthy
       then JSObj.get p k else Value.undefined) ∧
    ((∃ n ∈ names, (pv.defaultValidation (JSObj.get p n)).truthy) →
      (pv.validate (some p) (some [Requirement.arr names]) []).thrown = none) ∧
    ((∀ n ∈ names, ¬ (pv.defaultValidation (JSObj.get p n)).truthy) →
      (pv.validate (some p) (some [Requirement.arr names]) []).thrown =
        some (.ParameterValidationError
          ("One of the following parameters must be included: " ++ quoteList names ++ "."))) := by
  obtain ⟨n, ns, rfl⟩ := List.exists_cons_of_ne_nil h
  have hget : JSObj.get (JSObj.assign []
      (pv._performLogicalOrParamValidation p (n :: ns)).params) k =
      (if k ∈ n :: ns ∧ (pv.defaultValidation (JSObj.get p k)).truthy
       then JSObj.get p k else Value.undefined) := by
    rw [get_assign, performLogicalOr_lastVal pv p (n :: ns) k]
    by_cases hk : k ∈ n :: ns ∧ (pv.defaultValidation (JSObj.get p k)).truthy
    · rw [if_pos hk, if_pos hk]
      rfl
    · rw [if_neg hk, if_neg hk]
      rfl
  have hloop : pv.validateLoop p [Requirement.arr (n :: ns)] [] [] =
      (JSObj.assign [] (pv._performLogicalOrParamValidation p (n :: ns)).params,
       (pv._performLogicalOrParamValidation p (n :: ns)).errors, none) := rfl
  rw [validate_components pv p [] _ _ _ hloop]
  simp only [performLogicalOr_errors pv p (n :: ns) (List.cons_ne_nil n ns)]
  refine ⟨?_, ?_, ?_⟩
  · by_cases hall : ∀ m ∈ n :: ns, ¬ (pv.defaultValidation (JSObj.get p m)).truthy
    · rw [if_pos hall, if_neg (by simp)]
      exact hget
    · rw [if_neg hall, if_pos rfl]
      exact hget
  · rintro ⟨m, hm, hmt⟩
    have hallf : ¬ ∀ m' ∈ n :: ns, ¬ (pv.defaultValidation (JSObj.get p m')).truthy :=
      fun hall => hall m hm hmt
    rw [if_neg hallf, if_pos rfl]
  · intro hall
    rw [if_pos hall, if_neg (by simp)]
    rfl

/-- C4 (witness): `['a', 'b']` with only `b` provided extracts exactly `b`
and raises nothing. -/
theorem validate_logical_or_rule_witness :
    (["a", "b"] : List String) ≠ [] ∧
    (JSObj.get (parameterValidator.validate (some [("b", Value.string "x")])
        (some [Requirement.arr ["a", "b"]]) []).extractedParams "b" =
      (if "b" ∈ ["a", "b"] ∧
          (parameterValidator.defaultValidation
            (JSObj.get [("b", Value.string "x")] "b")).truthy
       then JSObj.get [("b", Value.string "x")] "b" else Value.undefined) ∧
    ((∃ n ∈ ["a", "b"],
        (parameterValidator.defaultValidation
          (JSObj.get [("b", Value.string "x")] n)).truthy) →
      (parameterValidator.validate (some [("b", Value.string "x")])
        (some [Requirement.arr ["a", "b"]]) []).thrown = none) ∧
    ((∀ n ∈ ["a", "b"],
        ¬ (parameterValidator.defaultValidation
          (JSObj.get [("b", Value.string "x")] n)).truthy) →
      (parameterValidator.validate (some [("b", Value.string "x")])
        (some [Requirement.arr ["a", "b"]]) []).thrown =
        some (.ParameterValidationError
          ("One of the following parameters must be included: " ++
            quoteList ["a", "b"] ++ ".")))) :=
  ⟨by decide,
   validate_logical_or_rule parameterValidator [("b", Value.string "x")] ["a", "b"] "b"
     (by decide)⟩

/-- C5: a custom-predicate requirement `{name: predicate}` invokes the
predicate on the parameter's current value; the pair is extracted exactly
when the predicate returns the boolean `true`, and otherwise `validate`
throws the `Invalid value of '<value>' was provided for parameter
'<name>'.` message; a non-empty-string requirement behaves identically to
a custom-predicate requirement carrying the instance's default validity
predicate. -/
theorem custom_predicate_rule (pv : ParameterValidator) (p t : JSObj) (name : String)
    (f : Value → Value) (s : String) (hs : s ≠ "") :
    (f (JSObj.get p name) = Value.boolean true →
      pv.validate (some p) (some [Requirement.obj [(name, ReqValue.fn f)]]) t =
        ⟨JSObj.set t name (JSObj.get p name), some p, none⟩) ∧
    (f (JSObj.get p name) ≠ Value.boolean true →
      pv.validate (some p) (some [Requirement.obj [(name, ReqValue.fn f)]]) t =
        ⟨t, some p,
         some (.ParameterValidationError
           ("Invalid value of '" ++ (JSObj.get p name).toDisplayString ++
            "' was provided for parameter '" ++ name ++ "'."))⟩) ∧
    pv.validate (some p) (some [Requirement.str s]) t =
      pv.validate (some p) (some [Requirement.obj [(s, ReqValue.fn pv.defaultValidation)]]) t := by
  have hloopObj : ∀ (nm : String) (g : Value → Value),
      pv.validateLoop p [Requirement.obj [(nm, ReqValue.fn g)]] t [] =
        (JSObj.assign (JSObj.assign t (execValidation p nm g).params)
          (execValidation p nm g).params,
         (execValidation p nm g).errors, none) := fun nm g => rfl
  refine ⟨?_, ?_, ?_⟩
  · intro hf
    have hl : pv.validateLoop p [Requirement.obj [(name, ReqValue.fn f)]] t [] =
        (JSObj.set (JSObj.set t name (JSObj.get p name)) name (JSObj.get p name), [], none) := by
      rw [hloopObj name f, execValidation, if_pos hf]
      rfl
    rw [validate_components pv p t _ _ _ hl, if_pos rfl, set_set_same]
  · intro hf
    have hl : pv.validateLoop p [Requirement.obj [(name, ReqValue.fn f)]] t [] =
        (t, ["Invalid value of '" ++ (JSObj.get p name).toDisplayString ++
          "' was provided for parameter '" ++ name ++ "'."], none) := by
      rw [hloopObj name f, execValidation, if_neg hf]
      rfl
    rw [validate_components pv p t _ _ _ hl, if_neg (by simp)]
    rfl
  · have hl1 : pv.validateLoop p [Requirement.str s] t [] =
        (JSObj.assign t (execValidation p s pv.defaultValidation).params,
         (execValidation p s pv.defaultValidation).errors, none) := by
      rw [ParameterValidator.validateLoop, if_neg hs]
      simp only [executeValidationFunction]
      rfl
    rw [validate_some pv p t [Requirement.str s],
      validate_some pv p t [Requirement.obj [(s, ReqValue.fn pv.defaultValidation)]],
      hl1, hloopObj s pv.defaultValidation, assign_execParams_idem]

/-- C5 (witness): predicate `v > 30` style check at a failing concrete
input, plus the string/predicate equivalence at `"req"`. -/
theorem custom_predicate_rule_witness :
    ("req" : String) ≠ "" ∧
    (((fun v => Value.boolean (v = Value.number 31))
          (JSObj.get [("x", Value.number 10)] "x") = Value.boolean true →
      parameterValidator.validate (some [("x", Value.number 10)])
          (some [Requirement.obj [("x",
            ReqValue.fn (fun v => Value.boolean (v = Value.number 31)))]]) [] =
        ⟨JSObj.set [] "x" (JSObj.get [("x", Value.number 10)] "x"),
         some [("x", Value.number 10)], none⟩) ∧
    ((fun v => Value.boolean (v = Value.number 31))
          (JSObj.get [("x", Value.number 10)] "x") ≠ Value.boolean true →
      parameterValidator.validate (some [("x", Value.number 10)])
          (some [Requirement.obj [("x",
            ReqValue.fn (fun v => Value.boolean (v = Value.number 31)))]]) [] =
        ⟨[], some [("x", Value.number 10)],
         some (.ParameterValidationError
           ("Invalid value of '" ++
              (JSObj.get [("x", Value.number 10)] "x").toDisplayString ++
            "' was provided for parameter '" ++ "x" ++ "'."))⟩) ∧
    parameterValidator.validate (some [("x", Value.number 10)])
        (some [Requirement.str "req"]) [] =
      parameterValidator.validate (some [("x", Value.number 10)])
        (some [Requirement.obj [("req",
          ReqValue.fn parameterValidator.defaultValidation)]]) []) :=
  ⟨by decide,
   custom_predicate_rule parameterValidator [("x", Value.number 10)] [] "x"
     (fun v => Value.boolean (v = Value.number 31)) "req" (by decide)⟩
